import Mathlib

/-!
Shallow embedding of `jaqs/trade/strategy.py`: the order-tracking base class
`Strategy` and the `AlphaStrategy` portfolio-rebalancing engine.  Python
floats are modelled as exact rationals, dicts as association lists kept in
insertion order, raised exceptions as `Except.error`, and the gateway and
position-tracker collaborators as function parameters.
-/

namespace JAQS

/-- Tolerance literal `1e-8` that the source uses for weight comparisons. -/
def eps : ℚ := 1 / 100000000

/-- Python 2 `int(round(x, 0))`: round half away from zero (the rounded value
is integral, so the `int` conversion is exact). -/
def pyRound (q : ℚ) : Int := if 0 ≤ q then ⌊q + 1 / 2⌋ else -⌊-q + 1 / 2⌋

/-- Embeds `np.sum(np.abs(weights.values()))`: the sum of the absolute values
of a weight mapping. -/
def absSum (l : List (String × ℚ)) : ℚ := (l.map (fun p => |p.2|)).sum

/-- Modelled from the spec: `GoalPosition` (jaqs.data.basic.position, not under
`src/`) carries a symbol and a target share count. -/
structure GoalPosition where
  symbol : String
  size : Int
deriving Repr, DecidableEq

/-- Modelled from the spec: `Order` (jaqs.data.basic.order, not under `src/`)
with the fields the spec's data model lists; `FixedPriceTypeOrder` adds the
`price_target` field.  The status field, mutated only by external callbacks,
is omitted. -/
structure Order where
  symbol : String
  action : String
  price : ℚ
  size : Int
  entrust_date : Int
  entrust_time : Int
  task_id : String
  entrust_no : String
  price_target : String
deriving Repr, DecidableEq

/-- Modelled from the spec: `Order.new_order(symbol, action, price, size,
date, time)` fills the trade fields and leaves the identifiers blank. -/
def Order.new_order (symbol action : String) (price : ℚ) (size : Int)
    (date time : Int) : Order :=
  { symbol := symbol, action := action, price := price, size := size,
    entrust_date := date, entrust_time := time, task_id := "", entrust_no := "",
    price_target := "" }

/-- Modelled from the spec: `common.ORDER_ACTION.BUY` (jaqs.trade.common, not
under `src/`). -/
def ORDER_ACTION_BUY : String := "Buy"

/-- Modelled from the spec: `common.ORDER_ACTION.SELL` (jaqs.trade.common, not
under `src/`). -/
def ORDER_ACTION_SELL : String := "Sell"

/-- Mutable state of one `Strategy` instance: the trade date, the per-key
`SequenceGenerator` counters (last value handed out), the `task_id_map`
(a `defaultdict(list)` kept in insertion order) and the orders registered
with the portfolio manager through `pm.add_order`. -/
structure StratState where
  trade_date : Int
  counters : String → Nat
  task_id_map : List (String × List String)
  pm_orders : List Order

/-- Python `d.get(k, None)` on the association-list dict. -/
def dictGet : List (String × List String) → String → Option (List String)
  | [], _ => none
  | p :: m, k => if p.1 = k then some p.2 else dictGet m k

/-- Python `d[k].append(v)` on a `defaultdict(list)`: extend the entry of `k`,
adding the key at the end when it is absent. -/
def mapAppend : List (String × List String) → String → String →
    List (String × List String)
  | [], k, v => [(k, [v])]
  | p :: m, k, v => if p.1 = k then (p.1, p.2 ++ [v]) :: m else p :: mapAppend m k v

/-- Embeds `Strategy._get_next_num` (line 74):
`str(np.int64(trade_date) * 10000 + seq_gen.get_next(key))`.  The call
`SequenceGenerator.get_next` (jaqs.util.sequence, not under `src/`) is
modelled from the spec: a per-key counter returning 1, 2, 3, ... -/
def get_next_num (s : StratState) (key : String) : String × StratState :=
  let n := s.counters key + 1
  (toString (s.trade_date * 10000 + (n : Int)),
   { s with counters := fun k => if k = key then n else s.counters k })

/-- Python `','.join(msgs)`. -/
def strJoin (sep : String) : List String → String
  | [] => ""
  | [x] => x
  | x :: y :: l => x ++ sep ++ strJoin sep (y :: l)

/-- Embeds `Strategy.place_order` (lines 78-120).  The gateway collaborator is
a function returning its error string; the result is the returned pair
`(task_id, err_msg)` plus the state after the call. -/
def place_order (s : StratState) (gateway : Order → String)
    (symbol action : String) (price : ℚ) (size : Int) (algo : String) :
    Except String (String × String × StratState) :=
  if algo ≠ "" then .error ("algo " ++ algo)
  else
    let o0 := Order.new_order symbol action price size s.trade_date 0
    let p1 := get_next_num s "task_id"
    let p2 := get_next_num p1.2 "entrust_no"
    let o := { o0 with task_id := p1.1, entrust_no := p2.1 }
    let s2 := { p2.2 with task_id_map := mapAppend p2.2.task_id_map o.task_id o.entrust_no }
    let s3 := { s2 with pm_orders := s2.pm_orders ++ [o] }
    let err := gateway o
    if err ≠ "" then .ok ("0", err, s3) else .ok (o.task_id, err, s3)

/-- Embeds `Strategy.cancel_order` (lines 122-149).  The third component lists
the entrust identifiers for which `gateway.cancel_order` was called. -/
def cancel_order (s : StratState) (gateway_cancel : String → String)
    (task_id : String) : (Bool × String) × List String :=
  match dictGet s.task_id_map task_id with
  | none => ((false, "No task id " ++ task_id), [])
  | some entrust_no_list =>
      let err_msgs := entrust_no_list.map gateway_cancel
      if err_msgs.any (fun e => e ≠ "") then
        ((false, strJoin "," err_msgs), entrust_no_list)
      else
        ((true, ""), entrust_no_list)

/-- Loop body of `Strategy.place_batch_order` (lines 172-182): mint an entrust
id, set both ids on the order, register it, forward it to the gateway and
record the entrust id under the shared task id. -/
def place_batch_order_step (gateway : Order → String) (task_id : String)
    (acc : List String × StratState) (o : Order) : List String × StratState :=
  let p := get_next_num acc.2 "entrust_no"
  let o2 := { o with task_id := task_id, entrust_no := p.1 }
  let st := { p.2 with pm_orders := p.2.pm_orders ++ [o2] }
  let err := gateway o2
  let st2 := { st with task_id_map := mapAppend st.task_id_map o2.task_id o2.entrust_no }
  (acc.1 ++ [err], st2)

/-- Embeds `Strategy.place_batch_order` (lines 151-184) up to the final join:
`(task_id, per-order error list, state after)`. -/
def place_batch_order_core (s : StratState) (gateway : Order → String)
    (orders : List Order) : String × List String × StratState :=
  let p := get_next_num s "task_id"
  let r := orders.foldl (place_batch_order_step gateway p.1) ([], p.2)
  (p.1, r.1, r.2)

/-- Embeds `Strategy.place_batch_order` (lines 151-184): the returned pair is
`(task_id, ','.join(err_msgs))`. -/
def place_batch_order (s : StratState) (gateway : Order → String)
    (orders : List Order) : String × String × StratState :=
  let r := place_batch_order_core s gateway orders
  (r.1, strJoin "," r.2.1, r.2.2)

/-- Loop body of `Strategy.goal_portfolio` (lines 220-233): the held size is
looked up through `holding` (`none` models a symbol outside
`pm.holding_securities`), and an order is appended only for a non-zero
difference, buying on positive and selling on negative. -/
def goal_portfolio_step (holding : String → Option Int) (td : Int)
    (orders : List Order) (goal : GoalPosition) : List Order :=
  let curr_size := (holding goal.symbol).getD 0
  let diff_size := goal.size - curr_size
  if diff_size ≠ 0 then
    let action := if diff_size > 0 then ORDER_ACTION_BUY else ORDER_ACTION_SELL
    let o := Order.new_order goal.symbol action 0 |diff_size| td 0
    orders ++ [{ o with price_target := "vwap" }]
  else orders

/-- Order list that `Strategy.goal_portfolio` accumulates before its single
`place_batch_order` call. -/
def goal_portfolio_orders (holding : String → Option Int) (td : Int)
    (goals : List GoalPosition) : List Order :=
  goals.foldl (goal_portfolio_step holding td) []

/-- Embeds `Strategy.goal_portfolio` (lines 199-234): the leading
`assert len(goals) == len(self.ctx.universe)` is an `Except.error`, and on
success the accumulated diff orders are submitted as one batch. -/
def goal_portfolio (s : StratState) (gateway : Order → String)
    (univ : List String) (holding : String → Option Int)
    (goals : List GoalPosition) : Except String (String × String × StratState) :=
  if goals.length = univ.length then
    .ok (place_batch_order s gateway (goal_portfolio_orders holding s.trade_date goals))
  else .error "AssertionError"

/-- Pre-normalization stage of `AlphaStrategy.portfolio_construction` (lines
441-447): NaN cleanup (`none` models a NaN raw weight) followed by the
optional stock-selector filter. -/
def portfolio_construction_pre (raw_weights : List (String × Option ℚ))
    (selected : Option (List String)) : List (String × ℚ) :=
  let weights := raw_weights.map (fun p => (p.1, match p.2 with | some v => v | none => 0))
  match selected with
  | some selected_list =>
      weights.map (fun p => (p.1, if p.1 ∈ selected_list then p.2 else 0))
  | none => weights

/-- Embeds `AlphaStrategy.portfolio_construction` (lines 421-454): NaN
cleanup, optional selection filter, then normalization by the absolute sum
when that sum exceeds `1e-8`. -/
def portfolio_construction (raw_weights : List (String × Option ℚ))
    (selected : Option (List String)) : List (String × ℚ) :=
  let weights := portfolio_construction_pre raw_weights selected
  let w_sum := absSum weights
  if w_sum > eps then weights.map (fun p => (p.1, p.2 / w_sum)) else weights

/-- Loop body of `AlphaStrategy.optimize_mc` (lines 513-518): `f = -util(w)`,
kept when strictly below the running minimum. -/
def optimize_mc_step (util : List (String × ℚ) → ℚ)
    (acc : ℚ × Option (List (String × ℚ))) (weights : List (String × ℚ)) :
    ℚ × Option (List (String × ℚ)) :=
  let f := -util weights
  if f < acc.1 then (f, some weights) else acc

/-- Embeds `AlphaStrategy.optimize_mc` (lines 488-524).  The `n_exp = 5` rows
of the normalized `np.random.rand` matrix are taken as the input list
`candidates`, since the embedding does not model the sampler; the sentinel
`min_f = 1e30` and the selection loop follow the source. -/
def optimize_mc (util : List (String × ℚ) → ℚ)
    (candidates : List (List (String × ℚ))) :
    Option (List (String × ℚ)) × String :=
  let r := candidates.foldl (optimize_mc_step util) ((10 : ℚ) ^ 30, none)
  match r.2 with
  | none => (none, "No weights can make f > 1.00e+30 found in this search")
  | some min_weights => (some min_weights, "")

/-- Python equality between a float and a str is `False` (no exception is
raised): used by the membership test `w in suspensions`, which compares a
weight value against a list of symbol strings. -/
def pyFloatEqStr (_ : ℚ) (_ : String) : Bool := false

/-- Embeds `AlphaStrategy.re_weight_suspension` (lines 526-548).  The dict
comprehension `{sec: w if w not in suspensions else 0.0 for sec, w in ...}`
zeroes an entry exactly when the float `w` is an element of the string list
`suspensions`. -/
def re_weight_suspension (weights : List (String × ℚ)) (univ : List String)
    (suspensions : List String) : Except String (List (String × ℚ)) :=
  if suspensions.isEmpty then .ok weights
  else if suspensions.length = univ.length then .error "All suspended"
  else
    let ws := weights.map
      (fun p => (p.1, if suspensions.any (pyFloatEqStr p.2) then 0 else p.2))
    let weights_sum := absSum ws
    .ok (if weights_sum > 0 then ws.map (fun p => (p.1, p.2 / weights_sum)) else ws)

/-- Loop body of `AlphaStrategy.generate_weights_order` (lines 586-619):
suspended symbols freeze the currently held size (`0` when `get_position`
returns `None`), near-zero weights liquidate, and the rest order
`int(round(w * turnover / price / 100., 0))` while `cash_used` accrues
`shares * price * 100`. -/
def generate_weights_order_step (turnover : ℚ) (prices : String → ℚ)
    (suspensions : List String) (get_position : String → Option Int)
    (acc : List GoalPosition × ℚ) (entry : String × ℚ) :
    List GoalPosition × ℚ :=
  let sec := entry.1
  let w := entry.2
  if sec ∈ suspensions then
    (acc.1 ++ [⟨sec, (get_position sec).getD 0⟩], acc.2)
  else if |w| < eps then
    (acc.1 ++ [⟨sec, 0⟩], acc.2)
  else
    let price := prices sec
    let shares_raw := w * turnover / price
    let shares := pyRound (shares_raw / 100)
    (acc.1 ++ [⟨sec, shares⟩], acc.2 + (shares : ℚ) * price * 100)

/-- Embeds `AlphaStrategy.generate_weights_order` (lines 557-622): an algo
outside `['close', 'vwap']` raises before any computation; otherwise the
loop builds one `GoalPosition` per weight entry and
`cash_left = turnover - cash_used` is returned beside the goals. -/
def generate_weights_order (weights_dic : List (String × ℚ)) (turnover : ℚ)
    (prices : String → ℚ) (algo : String) (suspensions : List String)
    (get_position : String → Option Int) :
    Except String (List GoalPosition × ℚ) :=
  if ¬ (algo = "close" ∨ algo = "vwap") then
    .error "Currently we only suport order at close price."
  else
    let r := weights_dic.foldl
      (generate_weights_order_step turnover prices suspensions get_position) ([], 0)
    .ok (r.1, turnover - r.2)

/-- Per-entry `GoalPosition` produced by one pass of the
`generate_weights_order` loop (used to characterize the accumulated list). -/
def goal_of_entry (turnover : ℚ) (prices : String → ℚ)
    (suspensions : List String) (get_position : String → Option Int)
    (entry : String × ℚ) : GoalPosition :=
  if entry.1 ∈ suspensions then
    ⟨entry.1, (get_position entry.1).getD 0⟩
  else if |entry.2| < eps then
    ⟨entry.1, 0⟩
  else
    ⟨entry.1, pyRound (entry.2 * turnover / prices entry.1 / 100)⟩

/-- Concrete strategy state used by the witnesses: a fresh instance on trade
date 20171106 with no orders placed yet. -/
def demoState : StratState :=
  { trade_date := 20171106, counters := fun _ => 0, task_id_map := [], pm_orders := [] }

/-- Concrete candidate list (5 single-symbol weight mappings) used by the C4
witness. -/
def mcCands : List (List (String × ℚ)) :=
  [[("A", 1)], [("A", 2)], [("A", 3)], [("A", 4)], [("A", 5)]]

lemma absSum_nonneg (l : List (String × ℚ)) : 0 ≤ absSum l := by
  induction l with
  | nil => simp [absSum]
  | cons p l ih =>
      simp only [absSum, List.map_cons, List.sum_cons] at ih ⊢
      exact add_nonneg (abs_nonneg _) ih

lemma absSum_map_div (l : List (String × ℚ)) (s : ℚ) (hs : 0 < s) :
    absSum (l.map (fun p => (p.1, p.2 / s))) = absSum l / s := by
  induction l with
  | nil => simp [absSum]
  | cons p l ih =>
      simp only [absSum, List.map_cons, List.sum_cons] at ih ⊢
      rw [ih, abs_div, abs_of_pos hs, add_div]

lemma generate_weights_order_step_fst (turnover : ℚ) (prices : String → ℚ)
    (suspensions : List String) (get_position : String → Option Int)
    (acc : List GoalPosition × ℚ) (entry : String × ℚ) :
    (generate_weights_order_step turnover prices suspensions get_position acc entry).1
      = acc.1 ++ [goal_of_entry turnover prices suspensions get_position entry] := by
  simp only [generate_weights_order_step, goal_of_entry]
  split_ifs <;> rfl

lemma generate_weights_order_goals (turnover : ℚ) (prices : String → ℚ)
    (suspensions : List String) (get_position : String → Option Int)
    (l : List (String × ℚ)) :
    ∀ acc : List GoalPosition × ℚ,
      (l.foldl (generate_weights_order_step turnover prices suspensions get_position) acc).1
        = acc.1 ++ l.map (goal_of_entry turnover prices suspensions get_position) := by
  induction l with
  | nil => intro acc; simp
  | cons e l ih =>
      intro acc
      rw [List.foldl_cons, ih, generate_weights_order_step_fst]
      simp

lemma goal_of_entry_symbol (turnover : ℚ) (prices : String → ℚ)
    (suspensions : List String) (get_position : String → Option Int)
    (entry : String × ℚ) :
    (goal_of_entry turnover prices suspensions get_position entry).symbol = entry.1 := by
  simp only [goal_of_entry]
  split_ifs <;> rfl

/-- C1: the claim says every suspended symbol has weight 0 after
`re_weight_suspension`.  The code evaluates `w not in suspensions` on the
weight value `w` rather than the symbol, which in Python is always true for
a float against a list of strings, so with weights `{A: 3/5, B: 2/5}` and
suspension set `{A}` the suspended symbol `A` keeps its nonzero weight. -/
theorem re_weight_suspension_bug :
    re_weight_suspension [("A", 3/5), ("B", 2/5)] ["A", "B"] ["A"]
      = .ok [("A", 3/5), ("B", 2/5)] ∧ "A" ∈ (["A"] : List String) ∧ ((3 : ℚ)/5 ≠ 0) := by
  refine ⟨?_, by decide, by norm_num⟩
  norm_num +decide [re_weight_suspension, pyFloatEqStr, absSum, abs_of_nonneg]

/-- C2: on the claim's example (weights `{A: 1/2, B: 1/2}`, turnover 100000,
prices `{A: 10, B: 20}`, no suspensions) the code returns goal sizes 50 and
25 — `int(round(shares_raw / 100))` lots, never multiplied back to shares —
while `cash_used = shares * price * 100 = 100000` leaves `cash_left = 0`,
so the claimed sizes 5000 and 2500 do not match the stored goal sizes. -/
theorem generate_weights_order_example :
    generate_weights_order [("A", 1/2), ("B", 1/2)] 100000
      (fun s => if s = "A" then 10 else 20) "close" [] (fun _ => none)
      = .ok ([⟨"A", 50⟩, ⟨"B", 25⟩], 0) := by
  norm_num +decide [generate_weights_order, generate_weights_order_step, eps, pyRound,
    abs_of_nonneg]

/-- C7: for every execution-style argument outside the allow-list
`['close', 'vwap']`, `generate_weights_order` raises the
unimplemented-feature error before computing any goal position. -/
theorem generate_weights_order_unsupported_algo
    (weights_dic : List (String × ℚ)) (turnover : ℚ) (prices : String → ℚ)
    (algo : String) (suspensions : List String) (get_position : String → Option Int)
    (h1 : algo ≠ "close") (h2 : algo ≠ "vwap") :
    generate_weights_order weights_dic turnover prices algo suspensions get_position
      = .error "Currently we only suport order at close price." := by
  simp [generate_weights_order, h1, h2]

/-- Witness for C7 at the concrete style `"open"`. -/
theorem generate_weights_order_unsupported_algo_witness :
    generate_weights_order [("A", 1)] 1000 (fun _ => 10) "open" [] (fun _ => none)
      = .error "Currently we only suport order at close price." :=
  generate_weights_order_unsupported_algo [("A", 1)] 1000 (fun _ => 10) "open" []
    (fun _ => none) (by decide) (by decide)

/-- C10: a symbol that is in the suspension set but has no tracked position
(`get_position` returns `None`) always gets goal size 0 from
`generate_weights_order`, whatever its target weight. -/
theorem generate_weights_order_suspended_untracked
    (weights_dic : List (String × ℚ)) (turnover : ℚ) (prices : String → ℚ)
    (algo : String) (suspensions : List String) (get_position : String → Option Int)
    (goals : List GoalPosition) (cash_left : ℚ) (sec : String)
    (hs : sec ∈ suspensions) (hp : get_position sec = none)
    (hok : generate_weights_order weights_dic turnover prices algo suspensions get_position
            = .ok (goals, cash_left)) :
    ∀ g ∈ goals, g.symbol = sec → g.size = 0 := by
  intro g hg hsym
  rw [generate_weights_order] at hok
  by_cases hcond : algo = "close" ∨ algo = "vwap"
  case neg => rw [if_pos hcond] at hok; exact absurd hok (by simp)
  case pos =>
    rw [if_neg (not_not_intro hcond)] at hok
    have h1 := congrArg Prod.fst (Except.ok.inj hok)
    simp only at h1
    rw [generate_weights_order_goals, List.nil_append] at h1
    rw [← h1] at hg
    obtain ⟨e, he, rfl⟩ := List.mem_map.mp hg
    rw [goal_of_entry_symbol] at hsym
    simp only [goal_of_entry, hsym, if_pos hs, hp]
    rfl

/-- Witness for C10: symbol `S` is suspended with no tracked position and
gets goal size 0 though its target weight is 1/2. -/
theorem generate_weights_order_suspended_untracked_witness :
    (⟨"S", 0⟩ : GoalPosition).size = 0 :=
  generate_weights_order_suspended_untracked [("S", 1/2), ("B", 1/2)] 1000 (fun _ => 10)
    "close" ["S"] (fun _ => none) [⟨"S", 0⟩, ⟨"B", 1⟩] 0 "S" (by decide) rfl
    (by norm_num +decide [generate_weights_order, generate_weights_order_step, eps, pyRound,
      abs_of_nonneg])
    ⟨"S", 0⟩ (by simp) rfl

/-- C5: every weight mapping leaving `portfolio_construction` has absolute
sum within `1e-8` of 0 or of 1: when the pre-normalization absolute sum
exceeds `1e-8` every weight is divided by that sum, otherwise the weights
pass through unchanged. -/
theorem portfolio_construction_normalized (raw : List (String × Option ℚ))
    (sel : Option (List String)) :
    (|absSum (portfolio_construction raw sel)| ≤ eps ∨
      |absSum (portfolio_construction raw sel) - 1| ≤ eps) ∧
    (absSum (portfolio_construction_pre raw sel) > eps →
      portfolio_construction raw sel
        = (portfolio_construction_pre raw sel).map
            (fun p => (p.1, p.2 / absSum (portfolio_construction_pre raw sel)))) ∧
    (absSum (portfolio_construction_pre raw sel) ≤ eps →
      portfolio_construction raw sel = portfolio_construction_pre raw sel) := by
  by_cases h : absSum (portfolio_construction_pre raw sel) > eps
  · have hmap : portfolio_construction raw sel
        = (portfolio_construction_pre raw sel).map
            (fun p => (p.1, p.2 / absSum (portfolio_construction_pre raw sel))) := by
      simp only [portfolio_construction]
      rw [if_pos h]
    have hpos : 0 < absSum (portfolio_construction_pre raw sel) :=
      lt_trans (by norm_num [eps]) h
    refine ⟨Or.inr ?_, fun _ => hmap, fun hle => absurd h (not_lt.mpr hle)⟩
    rw [hmap, absSum_map_div _ _ hpos, div_self (ne_of_gt hpos)]
    norm_num [eps]
  · have heq : portfolio_construction raw sel = portfolio_construction_pre raw sel := by
      simp only [portfolio_construction]
      rw [if_neg h]
    refine ⟨Or.inl ?_, fun hgt => absurd hgt h, fun _ => heq⟩
    rw [heq, abs_of_nonneg (absSum_nonneg _)]
    exact not_lt.mp h

lemma optimize_mc_step_fst_le (util : List (String × ℚ) → ℚ)
    (acc : ℚ × Option (List (String × ℚ))) (w : List (String × ℚ)) :
    (optimize_mc_step util acc w).1 ≤ acc.1 := by
  simp only [optimize_mc_step]
  split_ifs with h
  · exact le_of_lt h
  · exact le_rfl

lemma optimize_mc_step_fst_le_util (util : List (String × ℚ) → ℚ)
    (acc : ℚ × Option (List (String × ℚ))) (w : List (String × ℚ)) :
    (optimize_mc_step util acc w).1 ≤ -util w := by
  simp only [optimize_mc_step]
  split_ifs with h
  · exact le_rfl
  · exact not_lt.mp h

lemma optimize_mc_foldl_fst (util : List (String × ℚ) → ℚ)
    (l : List (List (String × ℚ))) :
    ∀ acc, (l.foldl (optimize_mc_step util) acc).1 ≤ acc.1 ∧
      ∀ w ∈ l, (l.foldl (optimize_mc_step util) acc).1 ≤ -util w := by
  induction l with
  | nil => intro acc; exact ⟨le_rfl, by simp⟩
  | cons a l ih =>
      intro acc
      rw [List.foldl_cons]
      obtain ⟨ih1, ih2⟩ := ih (optimize_mc_step util acc a)
      refine ⟨ih1.trans (optimize_mc_step_fst_le util acc a), ?_⟩
      intro w hw
      rcases List.mem_cons.mp hw with rfl | hw
      · exact ih1.trans (optimize_mc_step_fst_le_util util acc w)
      · exact ih2 w hw

lemma optimize_mc_foldl_snd (util : List (String × ℚ) → ℚ)
    (l : List (List (String × ℚ))) :
    ∀ acc, ((l.foldl (optimize_mc_step util) acc).2 = acc.2 ∧
            (l.foldl (optimize_mc_step util) acc).1 = acc.1) ∨
      ∃ w ∈ l, (l.foldl (optimize_mc_step util) acc).2 = some w ∧
        (l.foldl (optimize_mc_step util) acc).1 = -util w ∧
        (l.foldl (optimize_mc_step util) acc).1 < acc.1 := by
  induction l with
  | nil => intro acc; exact Or.inl ⟨rfl, rfl⟩
  | cons a l ih =>
      intro acc
      rw [List.foldl_cons]
      rcases ih (optimize_mc_step util acc a) with ⟨h2, h1⟩ | ⟨w, hw, h2, h1, hlt⟩
      · by_cases h : -util a < acc.1
        · refine Or.inr ⟨a, List.mem_cons_self a l, ?_, ?_, ?_⟩
          · rw [h2]; simp [optimize_mc_step, if_pos h]
          · rw [h1]; simp [optimize_mc_step, if_pos h]
          · rw [h1]; simpa [optimize_mc_step, if_pos h] using h
        · refine Or.inl ⟨?_, ?_⟩
          · rw [h2]; simp [optimize_mc_step, if_neg h]
          · rw [h1]; simp [optimize_mc_step, if_neg h]
      · exact Or.inr ⟨w, List.mem_cons_of_mem a hw, h2, h1,
          lt_of_lt_of_le hlt (optimize_mc_step_fst_le util acc a)⟩

/-- C4: when some of the 5 sampled candidates has utility above the sentinel
bound (`-1e30`), `optimize_mc` returns a candidate of maximum utility; when
none does, it returns `None` together with a non-empty message. -/
theorem optimize_mc_best (util : List (String × ℚ) → ℚ)
    (candidates : List (List (String × ℚ))) (_h5 : candidates.length = 5) :
    ((∃ w ∈ candidates, -util w < (10 : ℚ) ^ 30) →
      ∃ best, (optimize_mc util candidates).1 = some best ∧ best ∈ candidates ∧
        ∀ w ∈ candidates, util w ≤ util best) ∧
    ((∀ w ∈ candidates, ¬ -util w < (10 : ℚ) ^ 30) →
      (optimize_mc util candidates).1 = none ∧ (optimize_mc util candidates).2 ≠ "") := by
  obtain ⟨hle, hall⟩ := optimize_mc_foldl_fst util candidates ((10 : ℚ) ^ 30, none)
  rcases optimize_mc_foldl_snd util candidates ((10 : ℚ) ^ 30, none) with
    ⟨h2, h1⟩ | ⟨w, hw, h2, h1, hlt⟩
  · constructor
    · rintro ⟨w0, hw0, hw0lt⟩
      have hge := hall w0 hw0
      rw [h1] at hge
      exact absurd hw0lt (not_lt.mpr hge)
    · intro _
      constructor
      · simp [optimize_mc, h2]
      · simp [optimize_mc, h2]
  · constructor
    · intro _
      refine ⟨w, ?_, hw, ?_⟩
      · simp [optimize_mc, h2]
      · intro v hv
        have hv2 := hall v hv
        rw [h1] at hv2
        exact neg_le_neg_iff.mp hv2
    · intro hnone
      rw [h1] at hlt
      exact absurd hlt (hnone w hw)

/-- Witness for C4 at a concrete 5-candidate list with `absSum` as utility. -/
theorem optimize_mc_best_witness :
    ((∃ w ∈ mcCands, -absSum w < (10 : ℚ) ^ 30) →
      ∃ best, (optimize_mc absSum mcCands).1 = some best ∧ best ∈ mcCands ∧
        ∀ w ∈ mcCands, absSum w ≤ absSum best) ∧
    ((∀ w ∈ mcCands, ¬ -absSum w < (10 : ℚ) ^ 30) →
      (optimize_mc absSum mcCands).1 = none ∧ (optimize_mc absSum mcCands).2 ≠ "") :=
  optimize_mc_best absSum mcCands rfl

lemma strJoin_comma_cons2_ne (x y : String) (l : List String) :
    strJoin "," (x :: y :: l) ≠ "" := by
  intro h
  have hlen := congrArg String.length h
  rw [strJoin] at hlen
  simp [String.length_append] at hlen
  exact absurd hlen.1.2 (by decide)

lemma strJoin_comma_empty_iff (l : List String) :
    strJoin "," l = "" ↔ (l.length ≤ 1 ∧ ∀ e ∈ l, e = "") := by
  match l with
  | [] => simp [strJoin]
  | [x] => simp [strJoin]
  | x :: y :: l =>
      refine iff_of_false (strJoin_comma_cons2_ne x y l) ?_
      rintro ⟨hlen, -⟩
      simp at hlen

lemma batch_errs_length (gateway : Order → String) (task_id : String)
    (orders : List Order) :
    ∀ acc : List String × StratState,
      ((orders.foldl (place_batch_order_step gateway task_id) acc).1).length
        = acc.1.length + orders.length := by
  induction orders with
  | nil => intro acc; simp
  | cons o l ih =>
      intro acc
      rw [List.foldl_cons, ih]
      simp [place_batch_order_step]
      omega

/-- C3 amended: the string returned by `place_batch_order` is the comma-join
of the N per-order gateway errors, so it is empty iff N ≤ 1 and every
submission succeeded; for N ≥ 2 the separators alone make it non-empty even
when every submission succeeds. -/
theorem place_batch_order_err_empty_iff (s : StratState) (gateway : Order → String)
    (orders : List Order) :
    (place_batch_order s gateway orders).2.1 = "" ↔
      (orders.length ≤ 1 ∧
        ∀ e ∈ (place_batch_order_core s gateway orders).2.1, e = "") := by
  have hlen : ((place_batch_order_core s gateway orders).2.1).length = orders.length := by
    simp only [place_batch_order_core]
    rw [batch_errs_length]
    simp
  have hjoin : (place_batch_order s gateway orders).2.1
      = strJoin "," ((place_batch_order_core s gateway orders).2.1) := rfl
  rw [hjoin, strJoin_comma_empty_iff, hlen]

/-- C3 counterexample: a batch of two orders in which every gateway
submission succeeds (the gateway constantly returns the empty string) still
yields the non-empty joined error string `","`. -/
theorem place_batch_order_all_success_not_empty :
    (place_batch_order demoState (fun _ => "")
        [Order.new_order "000001.SZ" "Buy" 10 100 20171106 0,
         Order.new_order "600030.SH" "Buy" 20 200 20171106 0]).2.1 ≠ "" ∧
    ∀ e ∈ (place_batch_order_core demoState (fun _ => "")
        [Order.new_order "000001.SZ" "Buy" 10 100 20171106 0,
         Order.new_order "600030.SH" "Buy" 20 200 20171106 0]).2.1, e = "" := by
  constructor
  · decide
  · decide

lemma dictGet_mapAppend_self (m : List (String × List String)) (k v : String) :
    ∃ l, dictGet (mapAppend m k v) k = some l ∧ v ∈ l := by
  induction m with
  | nil => exact ⟨[v], by simp [mapAppend, dictGet], by simp⟩
  | cons p m ih =>
      by_cases h : p.1 = k
      · exact ⟨p.2 ++ [v], by simp [mapAppend, dictGet, h], by simp⟩
      · obtain ⟨l, hl, hv⟩ := ih
        exact ⟨l, by simp [mapAppend, dictGet, h, hl], hv⟩

lemma dictGet_eq_none (m : List (String × List String)) (k : String)
    (h : ∀ p ∈ m, p.1 ≠ k) : dictGet m k = none := by
  induction m with
  | nil => rfl
  | cons p m ih =>
      simp only [dictGet]
      rw [if_neg (h p (by simp))]
      exact ih (fun q hq => h q (by simp [hq]))

/-- C9: `cancel_order` on a task id that was never registered in
`task_id_map` returns the failure pair with the unknown-task message and
issues zero gateway cancel calls. -/
theorem cancel_order_unknown_task (s : StratState) (gateway_cancel : String → String)
    (task_id : String) (h : ∀ p ∈ s.task_id_map, p.1 ≠ task_id) :
    cancel_order s gateway_cancel task_id = ((false, "No task id " ++ task_id), []) := by
  simp [cancel_order, dictGet_eq_none s.task_id_map task_id h]

/-- Witness for C9 on a fresh state with an empty task map. -/
theorem cancel_order_unknown_task_witness :
    cancel_order demoState (fun _ => "") "201711060001"
      = ((false, "No task id " ++ "201711060001"), []) :=
  cancel_order_unknown_task demoState (fun _ => "") "201711060001" (by simp [demoState])

/-- C6: when the gateway reports a non-empty error, `place_order` returns the
sentinel failure task id `"0"` together with that error, while the minted
task id and entrust id stay recorded in `task_id_map` and the order stays
registered with the position tracker. -/
theorem place_order_gateway_error (s : StratState) (symbol action : String)
    (price : ℚ) (size : Int) (e : String) (he : e ≠ "") :
    ∃ st : StratState,
      place_order s (fun _ => e) symbol action price size "" = .ok ("0", e, st) ∧
      (∃ l, dictGet st.task_id_map (get_next_num s "task_id").1 = some l ∧
        (get_next_num (get_next_num s "task_id").2 "entrust_no").1 ∈ l) ∧
      ∃ o ∈ st.pm_orders,
        o.task_id = (get_next_num s "task_id").1 ∧
        o.entrust_no = (get_next_num (get_next_num s "task_id").2 "entrust_no").1 := by
  refine ⟨{ (get_next_num (get_next_num s "task_id").2 "entrust_no").2 with
      task_id_map := mapAppend
        (get_next_num (get_next_num s "task_id").2 "entrust_no").2.task_id_map
        (get_next_num s "task_id").1
        (get_next_num (get_next_num s "task_id").2 "entrust_no").1,
      pm_orders := (get_next_num (get_next_num s "task_id").2 "entrust_no").2.pm_orders ++
        [{ Order.new_order symbol action price size s.trade_date 0 with
            task_id := (get_next_num s "task_id").1,
            entrust_no := (get_next_num (get_next_num s "task_id").2 "entrust_no").1 }] },
    ?_, ?_, ?_⟩
  · simp only [place_order]
    rw [if_neg (by simp : ¬ ("" : String) ≠ "")]
    rw [if_pos he]
  · obtain ⟨l, hl, hv⟩ := dictGet_mapAppend_self
      (get_next_num (get_next_num s "task_id").2 "entrust_no").2.task_id_map
      (get_next_num s "task_id").1
      (get_next_num (get_next_num s "task_id").2 "entrust_no").1
    exact ⟨l, hl, hv⟩
  · refine ⟨_, List.mem_append_right _ (List.mem_singleton_self _), rfl, rfl⟩

/-- Witness for C6 on a fresh state with the gateway rejecting the order. -/
theorem place_order_gateway_error_witness :
    ∃ st : StratState,
      place_order demoState (fun _ => "rejected") "000001.SZ" "Buy" 10 100 ""
        = .ok ("0", "rejected", st) ∧
      (∃ l, dictGet st.task_id_map (get_next_num demoState "task_id").1 = some l ∧
        (get_next_num (get_next_num demoState "task_id").2 "entrust_no").1 ∈ l) ∧
      ∃ o ∈ st.pm_orders,
        o.task_id = (get_next_num demoState "task_id").1 ∧
        o.entrust_no = (get_next_num (get_next_num demoState "task_id").2 "entrust_no").1 :=
  place_order_gateway_error demoState "000001.SZ" "Buy" 10 100 "rejected" (by decide)

lemma goal_portfolio_orders_eq (holding : String → Option Int) (td : Int)
    (goals : List GoalPosition) :
    ∀ acc : List Order,
      goals.foldl (goal_portfolio_step holding td) acc
        = acc ++ goals.filterMap (fun g =>
            if g.size - (holding g.symbol).getD 0 = 0 then none
            else some { Order.new_order g.symbol
                (if g.size - (holding g.symbol).getD 0 > 0 then ORDER_ACTION_BUY
                 else ORDER_ACTION_SELL)
                0 |g.size - (holding g.symbol).getD 0| td 0
              with price_target := "vwap" }) := by
  induction goals with
  | nil => intro acc; simp
  | cons g l ih =>
      intro acc
      rw [List.foldl_cons, ih]
      by_cases h : g.size - (holding g.symbol).getD 0 = 0
      · simp [goal_portfolio_step, h]
      · simp [goal_portfolio_step, h]

/-- C8: `goal_portfolio` fails before submitting anything when the goal list
length differs from the universe length; when they match, exactly the goals
whose size differs from the currently held size generate orders (buy for a
positive difference, sell for a negative one, size the absolute difference)
and those orders are submitted as one `place_batch_order` batch. -/
theorem goal_portfolio_spec (s : StratState) (gateway : Order → String)
    (univ : List String) (holding : String → Option Int) (goals : List GoalPosition) :
    (goals.length ≠ univ.length →
      goal_portfolio s gateway univ holding goals = .error "AssertionError") ∧
    (goals.length = univ.length →
      goal_portfolio s gateway univ holding goals
        = .ok (place_batch_order s gateway (goals.filterMap (fun g =>
            if g.size - (holding g.symbol).getD 0 = 0 then none
            else some { Order.new_order g.symbol
                (if g.size - (holding g.symbol).getD 0 > 0 then ORDER_ACTION_BUY
                 else ORDER_ACTION_SELL)
                0 |g.size - (holding g.symbol).getD 0| s.trade_date 0
              with price_target := "vwap" })))) := by
  constructor
  · intro h
    simp [goal_portfolio, h]
  · intro h
    rw [goal_portfolio, if_pos h, goal_portfolio_orders, goal_portfolio_orders_eq]
    simp

end JAQS
